import Mathlib

/-!
Verification of the lpg asset-generation pipeline (src/src/main.rs).

The repository code under src/ is a single Rust file: it loads a poster
template, a painting template and a pool of input images, and for every
input index writes three derived assets (an atlas, a tips card and a
painting).  The Compositor primitives it calls (resize, resize_to_fill,
overlay, crop) live in the external image library and are therefore
modelled here from the spec, in exact rational arithmetic where the
library uses f64; everything else is translated from src/src/main.rs.
-/

/-- RGBA pixel with 8-bit channels, as in the image library's Rgba type. -/
structure Pixel where
  r : Nat
  g : Nat
  b : Nat
  a : Nat
  deriving DecidableEq

/-- The fully transparent pixel: a zeroed Rgba value. -/
def transparentPix : Pixel := ⟨0, 0, 0, 0⟩

/-- Modelled from the spec: the Compositor's alpha blend ("standard over
compositing"; implemented by the external image library, not present in
src/).  A fully transparent foreground pixel leaves the base pixel
unchanged, a fully opaque one replaces it, and partial alpha blends with
the over formula, here in exact rational arithmetic rounded back to
integer channels. -/
def blend (bot top : Pixel) : Pixel :=
  if top.a = 0 then bot
  else if top.a = 255 then top
  else
    let fa : ℚ := (top.a : ℚ) / 255
    let ba : ℚ := (bot.a : ℚ) / 255
    let outA : ℚ := fa + ba * (1 - fa)
    let ch : Nat → Nat → Nat := fun tc bc =>
      (round ((((tc : ℚ) * fa + (bc : ℚ) * ba * (1 - fa))) / outA)).toNat
    ⟨ch top.r bot.r, ch top.g bot.g, ch top.b bot.b, (round (outA * 255)).toNat⟩

/-- An in-memory bitmap: width, height and a total pixel function.  Reads
outside the width-by-height range are never observed by the program and
are irrelevant to the extensional equality below. -/
structure Img where
  width : Nat
  height : Nat
  pix : Nat → Nat → Pixel

/-- Extensional equality of bitmaps: same dimensions and the same pixel at
every in-range coordinate. -/
def ImgEq (p q : Img) : Prop :=
  p.width = q.width ∧ p.height = q.height ∧
    ∀ x, x < p.width → ∀ y, y < p.height → p.pix x y = q.pix x y

/-- An all-transparent bitmap; also the default value that makes list
indexing total in the orchestrator model (never reached at the in-range
indices the program uses). -/
def blankImg (w h : Nat) : Img := ⟨w, h, fun _ _ => transparentPix⟩

/-- Modelled from the spec: the image library's crop with the bound
clamping of crop_dimms — the requested rectangle is clipped to the source
bounds. -/
def crop (img : Img) (cx cy cw ch : Nat) : Img :=
  ⟨min cw (img.width - min cx img.width),
   min ch (img.height - min cy img.height),
   fun i j => img.pix (min cx img.width + i) (min cy img.height + j)⟩

/-- Modelled from the spec: the Compositor's overlay (the image library's
imageops overlay, not present in src/).  It alpha-composites the
foreground onto the base at signed offset (x, y); foreground pixels that
fall outside the base are clipped, the base dimensions are unchanged, and
no input can fault (the function is total). -/
def overlay (base fg : Img) (x y : Int) : Img :=
  ⟨base.width, base.height, fun px py =>
    if x ≤ (px : Int) ∧ (px : Int) < x + (fg.width : Int) ∧
        y ≤ (py : Int) ∧ (py : Int) < y + (fg.height : Int) then
      blend (base.pix px py) (fg.pix ((px : Int) - x).toNat ((py : Int) - y).toNat)
    else
      base.pix px py⟩

/-- Modelled from the spec: the dimension rule shared by the two resize
modes (the image library's resize_dimensions, not present in src/).  Fit
scales by the smaller of the width and height ratios, fill by the larger;
each output dimension is the scaled source dimension rounded to nearest
and at least 1.  The library computes this in f64, here modelled in exact
rational arithmetic, which agrees on the positive dimensions decoded
images have. -/
def resize_dimensions (w h nw nh : Nat) (fill : Bool) : Nat × Nat :=
  let wratio : ℚ := (nw : ℚ) / (w : ℚ)
  let hratio : ℚ := (nh : ℚ) / (h : ℚ)
  let s : ℚ := if fill then max wratio hratio else min wratio hratio
  (max (round ((w : ℚ) * s)).toNat 1, max (round ((h : ℚ) * s)).toNat 1)

/-- Modelled from the spec: resampling to exact target dimensions.  The
pixel values of the spec's Lanczos-3 filter are floating-point arithmetic
that no claim checked here depends on; sampling is abstracted to source
coordinate scaling, while the result dimensions are exact. -/
def resize_exact (img : Img) (nw nh : Nat) : Img :=
  ⟨nw, nh, fun i j => img.pix (i * img.width / nw) (j * img.height / nh)⟩

/-- Modelled from the spec: fit-mode resize (the image library's resize):
aspect-preserving, bounded by the target box. -/
def Img.resize (img : Img) (nw nh : Nat) : Img :=
  let d := resize_dimensions img.width img.height nw nh false
  resize_exact img d.1 d.2

/-- Modelled from the spec: fill-mode resize (the image library's
resize_to_fill): scale by the larger ratio so the result covers the
target box, then crop to exactly the target dimensions, centred along the
dimension that overhangs. -/
def Img.resize_to_fill (img : Img) (nw nh : Nat) : Img :=
  let d := resize_dimensions img.width img.height nw nh true
  let inter := resize_exact img d.1 d.2
  if nw * inter.height > inter.width * nh then
    crop inter 0 ((inter.height - nh) / 2) nw nh
  else
    crop inter ((inter.width - nw) / 2) 0 nw nh

/-- A slot rectangle of the atlas template; the source stores each slot as
a 4-array of u32 laid out as [x, y, width, height]. -/
structure SlotRect where
  x : Nat
  y : Nat
  width : Nat
  height : Nat
  deriving DecidableEq

/-- The five fixed slot rectangles, POSTER_OFFSETS in src/src/main.rs. -/
def POSTER_OFFSETS : List SlotRect :=
  [⟨0, 0, 341, 559⟩,
   ⟨346, 0, 284, 559⟩,
   ⟨641, 58, 274, 243⟩,
   ⟨184, 620, 411, 364⟩,
   ⟨632, 320, 372, 672⟩]

/-- generate_atlas from src/src/main.rs: clone the template as the base,
compute for every slot the fit-resized source and its right-aligned,
top-aligned position x = slot.x + slot.width - resized.width, y = slot.y
(an order-preserving parallel map in the source, rayon par_iter map
collect, modelled as List.map), then overlay the five results onto the
base strictly sequentially in slot-table order.  The u32 subtraction in x
is modelled by Nat subtraction; it never truncates (see the underflow
theorem below). -/
def generate_atlas (template : Img) (posters : List Img) : Img :=
  let overlays : List (Img × Int × Int) :=
    POSTER_OFFSETS.enum.map (fun io =>
      let o := io.2
      let resized_img := (posters.getD io.1 (blankImg 0 0)).resize o.width o.height
      (resized_img, ((o.x + o.width - resized_img.width : Nat) : Int), (o.y : Int)))
  overlays.foldl (fun base rxy => overlay base rxy.1 rxy.2.1 rxy.2.2) template

/-- Sequential reference for the atlas, following the spec's words: for
slots 0 through 4 in table order, resize the matching source to fit the
slot and immediately overlay it right-aligned and top-aligned before the
next slot is processed. -/
def atlas_sequential_spec (template : Img) (posters : List Img) : Img :=
  POSTER_OFFSETS.enum.foldl (fun base io =>
    let o := io.2
    let resized_img := (posters.getD io.1 (blankImg 0 0)).resize o.width o.height
    overlay base resized_img ((o.x + o.width - resized_img.width : Nat) : Int) (o.y : Int))
    template

/-- generate_tips from src/src/main.rs: a fresh zero-filled (hence fully
transparent) 796 by 1024 canvas, the source fit-resized within 796 by
1024 and overlaid right-aligned at the top.  The u32 subtraction
796 - width is modelled by Nat subtraction; it never truncates (see the
underflow theorem below). -/
def generate_tips (poster : Img) : Img :=
  let base := blankImg 796 1024
  let resized_poster := poster.resize 796 1024
  overlay base resized_poster ((796 - resized_poster.width : Nat) : Int) 0

/-- generate_painting from src/src/main.rs: clone the painting template,
fill-resize the source to exactly 243 by 324 and overlay it at the fixed
absolute position (264, 19). -/
def generate_painting (template : Img) (poster : Img) : Img :=
  overlay template (poster.resize_to_fill 243 324) 264 19

/-- The three output directories of a batch run. -/
inductive OutDir
  | posters
  | tips
  | paintings
  deriving DecidableEq

/-- Output file name for index i, as formatted in the source. -/
def imgName (i : Nat) : String := toString i ++ ".png"

/-- One finished canvas written to an output directory under a name. -/
structure Write where
  dir : OutDir
  name : String
  img : Img

/-- The five source images handed to generate_atlas for output index i, in
order, as selected in src/src/main.rs lines 127-133. -/
def atlasSources (imgs : List Img) (i : Nat) : List Img :=
  [imgs.getD (i % imgs.length) (blankImg 0 0),
   imgs.getD ((i + 1) % imgs.length) (blankImg 0 0),
   imgs.getD ((i + 2) % imgs.length) (blankImg 0 0),
   imgs.getD ((i + 3) % imgs.length) (blankImg 0 0),
   imgs.getD ((i + 4) % imgs.length) (blankImg 0 0)]

/-- The single source image handed to generate_tips and generate_painting
for output index i. -/
def singleSource (imgs : List Img) (i : Nat) : Img :=
  imgs.getD (i % imgs.length) (blankImg 0 0)

/-- The three files written for one output index in src/src/main.rs
lines 115-155. -/
def perIndexWrites (poster_template painting_template : Img) (imgs : List Img)
    (i : Nat) : List Write :=
  [⟨OutDir.posters, imgName i, generate_atlas poster_template (atlasSources imgs i)⟩,
   ⟨OutDir.tips, imgName i, generate_tips (singleSource imgs i)⟩,
   ⟨OutDir.paintings, imgName i, generate_painting painting_template (singleSource imgs i)⟩]

/-- The writes of a whole run when the data-parallel outer loop finishes
the indices in the given order; rayon's par_iter imposes no order between
distinct indices, so a schedule is any permutation of 0..N-1. -/
def generate_assets_sched (poster_template painting_template : Img)
    (imgs : List Img) (order : List Nat) : List Write :=
  order.flatMap (perIndexWrites poster_template painting_template imgs)

/-- generate_assets from src/src/main.rs with the outer loop in canonical
index order 0..N-1: for each index write the atlas, tips and painting
files. -/
def generate_assets (poster_template painting_template : Img)
    (imgs : List Img) : List Write :=
  generate_assets_sched poster_template painting_template imgs
    (List.range imgs.length)

/-- Outcome of a run of generate_assets: either it completes with its
writes or it aborts fatally.  The source has no fatal branch apart from
I/O write failures, which are outside the model; in particular it
performs no emptiness check on the decoded image store, so the outcome is
always ok. -/
inductive RunOutcome
  | ok (writes : List Write)
  | fatal

/-- The modelled run of generate_assets (src/src/main.rs lines 101-160). -/
def runGenerate (poster_template painting_template : Img)
    (imgs : List Img) : RunOutcome :=
  RunOutcome.ok (generate_assets poster_template painting_template imgs)

/-- The file names a complete run writes into one directory. -/
def writtenNames (poster_template painting_template : Img) (imgs : List Img)
    (d : OutDir) : List String :=
  (generate_assets poster_template painting_template imgs).filterMap
    (fun w => if w.dir = d then some w.name else none)

/-- The sub-bitmap of the foreground that lands inside the base's bounds
when overlaid at signed offset (x, y). -/
def visiblePart (base fg : Img) (x y : Int) : Img :=
  crop fg (-x).toNat (-y).toNat
    (((base.width : Int) - max x 0).toNat)
    (((base.height : Int) - max y 0).toNat)

theorem lpg_round_mono {a b : ℚ} (h : a ≤ b) : round a ≤ round b := by
  rw [round_eq, round_eq]
  exact Int.floor_le_floor (by linarith)

theorem lpg_round_nonneg {a : ℚ} (h : 0 ≤ a) : 0 ≤ round a := by
  have h2 := lpg_round_mono h
  simpa [round_zero] using h2

theorem lpg_clamp_close (x : ℚ) (hx : 0 ≤ x) :
    |((max (round x).toNat 1 : ℕ) : ℚ) - x| ≤ 1 := by
  have h0 : 0 ≤ round x := lpg_round_nonneg hx
  have habs : |x - (round x : ℚ)| ≤ 1 / 2 := abs_sub_round x
  rcases Nat.lt_or_ge (round x).toNat 1 with hlt | hge
  · have hrz : round x = 0 := by omega
    have hm : max (round x).toNat 1 = 1 := by omega
    rw [hrz] at habs
    rw [hm]
    rw [abs_le] at habs ⊢
    push_cast at habs ⊢
    constructor <;> linarith [habs.1, habs.2]
  · have hm : max (round x).toNat 1 = (round x).toNat := by omega
    rw [hm]
    lift round x to ℕ using h0 with n hn
    simp only [Int.toNat_natCast]
    rw [abs_sub_comm] at habs
    push_cast at habs ⊢
    exact le_trans habs (by norm_num)

theorem fit_le (w h nw nh : Nat) (h1 : 1 ≤ nw) (h2 : 1 ≤ nh) :
    (resize_dimensions w h nw nh false).1 ≤ nw ∧
      (resize_dimensions w h nw nh false).2 ≤ nh := by
  have hmw : (w : ℚ) * min ((nw : ℚ) / (w : ℚ)) ((nh : ℚ) / (h : ℚ)) ≤ (nw : ℚ) := by
    rcases Nat.eq_zero_or_pos w with h0 | hp
    · subst h0
      simp
    · have hw : (0 : ℚ) < w := by exact_mod_cast hp
      calc (w : ℚ) * min ((nw : ℚ) / (w : ℚ)) ((nh : ℚ) / (h : ℚ))
          ≤ (w : ℚ) * ((nw : ℚ) / (w : ℚ)) :=
            mul_le_mul_of_nonneg_left (min_le_left _ _) hw.le
        _ = (nw : ℚ) := by field_simp
  have hmh : (h : ℚ) * min ((nw : ℚ) / (w : ℚ)) ((nh : ℚ) / (h : ℚ)) ≤ (nh : ℚ) := by
    rcases Nat.eq_zero_or_pos h with h0 | hp
    · subst h0
      simp
    · have hh : (0 : ℚ) < h := by exact_mod_cast hp
      calc (h : ℚ) * min ((nw : ℚ) / (w : ℚ)) ((nh : ℚ) / (h : ℚ))
          ≤ (h : ℚ) * ((nh : ℚ) / (h : ℚ)) :=
            mul_le_mul_of_nonneg_left (min_le_right _ _) hh.le
        _ = (nh : ℚ) := by field_simp
  have r1 : round ((w : ℚ) * min ((nw : ℚ) / (w : ℚ)) ((nh : ℚ) / (h : ℚ))) ≤ (nw : ℤ) := by
    have := lpg_round_mono hmw
    simpa [round_natCast] using this
  have r2 : round ((h : ℚ) * min ((nw : ℚ) / (w : ℚ)) ((nh : ℚ) / (h : ℚ))) ≤ (nh : ℤ) := by
    have := lpg_round_mono hmh
    simpa [round_natCast] using this
  have e : resize_dimensions w h nw nh false =
      (max (round ((w : ℚ) * min ((nw : ℚ) / (w : ℚ)) ((nh : ℚ) / (h : ℚ)))).toNat 1,
       max (round ((h : ℚ) * min ((nw : ℚ) / (w : ℚ)) ((nh : ℚ) / (h : ℚ)))).toNat 1) := by
    simp [resize_dimensions]
  rw [e]
  refine ⟨?_, ?_⟩ <;> dsimp only <;> omega

theorem fill_ge (w h nw nh : Nat) (hw : 1 ≤ w) (hh : 1 ≤ h)
    (h1 : 1 ≤ nw) (h2 : 1 ≤ nh) :
    nw ≤ (resize_dimensions w h nw nh true).1 ∧
      nh ≤ (resize_dimensions w h nw nh true).2 := by
  have hwq : (0 : ℚ) < w := by exact_mod_cast hw
  have hhq : (0 : ℚ) < h := by exact_mod_cast hh
  have hmw : (nw : ℚ) ≤ (w : ℚ) * max ((nw : ℚ) / (w : ℚ)) ((nh : ℚ) / (h : ℚ)) := by
    calc (nw : ℚ) = (w : ℚ) * ((nw : ℚ) / (w : ℚ)) := by field_simp
      _ ≤ (w : ℚ) * max ((nw : ℚ) / (w : ℚ)) ((nh : ℚ) / (h : ℚ)) :=
          mul_le_mul_of_nonneg_left (le_max_left _ _) hwq.le
  have hmh : (nh : ℚ) ≤ (h : ℚ) * max ((nw : ℚ) / (w : ℚ)) ((nh : ℚ) / (h : ℚ)) := by
    calc (nh : ℚ) = (h : ℚ) * ((nh : ℚ) / (h : ℚ)) := by field_simp
      _ ≤ (h : ℚ) * max ((nw : ℚ) / (w : ℚ)) ((nh : ℚ) / (h : ℚ)) :=
          mul_le_mul_of_nonneg_left (le_max_right _ _) hhq.le
  have r1 : (nw : ℤ) ≤ round ((w : ℚ) * max ((nw : ℚ) / (w : ℚ)) ((nh : ℚ) / (h : ℚ))) := by
    have := lpg_round_mono hmw
    simpa [round_natCast] using this
  have r2 : (nh : ℤ) ≤ round ((h : ℚ) * max ((nw : ℚ) / (w : ℚ)) ((nh : ℚ) / (h : ℚ))) := by
    have := lpg_round_mono hmh
    simpa [round_natCast] using this
  have e : resize_dimensions w h nw nh true =
      (max (round ((w : ℚ) * max ((nw : ℚ) / (w : ℚ)) ((nh : ℚ) / (h : ℚ)))).toNat 1,
       max (round ((h : ℚ) * max ((nw : ℚ) / (w : ℚ)) ((nh : ℚ) / (h : ℚ)))).toNat 1) := by
    simp [resize_dimensions]
  rw [e]
  refine ⟨?_, ?_⟩ <;> dsimp only <;> omega

theorem fit_close (w h nw nh : Nat) :
    |(((resize_dimensions w h nw nh false).1 : ℚ)) -
        (w : ℚ) * min ((nw : ℚ) / (w : ℚ)) ((nh : ℚ) / (h : ℚ))| ≤ 1 ∧
      |(((resize_dimensions w h nw nh false).2 : ℚ)) -
        (h : ℚ) * min ((nw : ℚ) / (w : ℚ)) ((nh : ℚ) / (h : ℚ))| ≤ 1 := by
  have hs : 0 ≤ min ((nw : ℚ) / (w : ℚ)) ((nh : ℚ) / (h : ℚ)) :=
    le_min (div_nonneg (Nat.cast_nonneg _) (Nat.cast_nonneg _))
      (div_nonneg (Nat.cast_nonneg _) (Nat.cast_nonneg _))
  constructor
  · exact lpg_clamp_close _ (mul_nonneg (Nat.cast_nonneg _) hs)
  · exact lpg_clamp_close _ (mul_nonneg (Nat.cast_nonneg _) hs)

/-- C1 counterexample: with an empty decoded image store (the concrete
input: two 1 by 1 templates and no input images) the run does not abort
fatally — generate_assets has no emptiness check, its data-parallel loop
body never executes — so it terminates normally (exit code 0) with zero
writes, refuting the claimed fatal error and non-zero exit. -/
theorem c1_counterexample :
    runGenerate (blankImg 1 1) (blankImg 1 1) [] ≠ RunOutcome.fatal ∧
      runGenerate (blankImg 1 1) (blankImg 1 1) [] = RunOutcome.ok [] :=
  ⟨fun hcontra => (nomatch hcontra), rfl⟩

/-- C1 (amended): if the decoded image store is empty, the program writes
no output files and never reaches the modulo-based indexing (the list of
scheduled writes is empty), but it terminates normally with exit code 0
rather than with a fatal error. -/
theorem c1_empty_store (poster_template painting_template : Img) :
    generate_assets poster_template painting_template [] = [] ∧
      runGenerate poster_template painting_template [] = RunOutcome.ok [] :=
  ⟨rfl, rfl⟩

/-- C2: for a store of size N at least 1, the five images fed to the atlas
for output index i are exactly the store entries at indices i, i+1, i+2,
i+3, i+4 taken modulo N, in that order; the single image fed to tips and
painting is the entry at index i modulo N; and every one of these index
computations is strictly below N, so the accesses are in bounds even when
N is below 5, where the indices wrap. -/
theorem c2_indices (imgs : List Img) (i : Nat) (h : 1 ≤ imgs.length) :
    atlasSources imgs i =
      [i % imgs.length, (i + 1) % imgs.length, (i + 2) % imgs.length,
        (i + 3) % imgs.length, (i + 4) % imgs.length].map
        (fun j => imgs.getD j (blankImg 0 0)) ∧
      (∀ j ∈ [i % imgs.length, (i + 1) % imgs.length, (i + 2) % imgs.length,
        (i + 3) % imgs.length, (i + 4) % imgs.length], j < imgs.length) ∧
      singleSource imgs i = imgs.getD (i % imgs.length) (blankImg 0 0) ∧
      i % imgs.length < imgs.length := by
  have hpos : 0 < imgs.length := h
  refine ⟨rfl, ?_, rfl, Nat.mod_lt _ hpos⟩
  intro j hj
  simp only [List.mem_cons, List.not_mem_nil, or_false] at hj
  rcases hj with rfl | rfl | rfl | rfl | rfl <;> exact Nat.mod_lt _ hpos

/-- Concrete two-image store used by the index-selection witness. -/
def witnessImgs : List Img := [blankImg 1 1, blankImg 2 2]

/-- Witness for the index-selection theorem at a store of size 2 and
output index 3, where the five-slot window wraps. -/
theorem c2_indices_witness :
    1 ≤ witnessImgs.length ∧
      (atlasSources witnessImgs 3 =
        [3 % witnessImgs.length, (3 + 1) % witnessImgs.length,
          (3 + 2) % witnessImgs.length, (3 + 3) % witnessImgs.length,
          (3 + 4) % witnessImgs.length].map
          (fun j => witnessImgs.getD j (blankImg 0 0)) ∧
        (∀ j ∈ [3 % witnessImgs.length, (3 + 1) % witnessImgs.length,
          (3 + 2) % witnessImgs.length, (3 + 3) % witnessImgs.length,
          (3 + 4) % witnessImgs.length], j < witnessImgs.length) ∧
        singleSource witnessImgs 3 = witnessImgs.getD (3 % witnessImgs.length) (blankImg 0 0) ∧
        3 % witnessImgs.length < witnessImgs.length) :=
  ⟨by norm_num [witnessImgs], c2_indices witnessImgs 3 (by norm_num [witnessImgs])⟩

/-- C3: the atlas generator clones the template and applies, for slots 0
through 4 in table order, the fit-resized source at the right-aligned,
top-aligned position x = slot.x + slot.width - resized.width, y = slot.y;
its parallel resize phase is an order-preserving map, so the result
equals the purely sequential reference that resizes and overlays slot 0,
then 1, then 2, then 3, then 4. -/
theorem c3_atlas_sequential (template : Img) (posters : List Img) :
    generate_atlas template posters = atlas_sequential_spec template posters := by
  simp [generate_atlas, atlas_sequential_spec, List.foldl_map]

/-- C4: the tips generator produces a canvas of exactly 796 by 1024 pixels
with no template behind it; at every in-range coordinate the pixel is the
fit-resized source composited over a transparent pixel when the
coordinate falls in the right-aligned, top-aligned placement region
(x from 796 - resized.width, y from 0), and stays fully transparent
everywhere else. -/
theorem c4_tips (p : Img) (px py : Nat) (hx : px < 796) (hy : py < 1024) :
    (generate_tips p).width = 796 ∧ (generate_tips p).height = 1024 ∧
      (generate_tips p).pix px py =
        (if 796 - (p.resize 796 1024).width ≤ px ∧ py < (p.resize 796 1024).height then
          blend transparentPix
            ((p.resize 796 1024).pix (px - (796 - (p.resize 796 1024).width)) py)
        else transparentPix) := by
  have hw : (p.resize 796 1024).width ≤ 796 :=
    (fit_le p.width p.height 796 1024 (by norm_num) (by norm_num)).1
  refine ⟨rfl, rfl, ?_⟩
  show (overlay (blankImg 796 1024) (p.resize 796 1024)
      ((796 - (p.resize 796 1024).width : Nat) : Int) 0).pix px py = _
  set r := p.resize 796 1024 with hrdef
  clear_value r
  obtain ⟨rw0, rh0, rp⟩ := r
  simp only [overlay, blankImg] at hw ⊢
  split_ifs with hA hB hB
  · have e1 : ((px : Int) - ((796 - rw0 : Nat) : Int)).toNat = px - (796 - rw0) := by
      omega
    have e2 : ((py : Int) - 0).toNat = py := by omega
    rw [e1, e2]
  · exfalso
    omega
  · exfalso
    omega
  · rfl

/-- Witness for the tips theorem at a concrete 398 by 512 source and the
top-left corner pixel. -/
theorem c4_tips_witness :
    (0 : Nat) < 796 ∧ (0 : Nat) < 1024 ∧
      ((generate_tips (blankImg 398 512)).width = 796 ∧
        (generate_tips (blankImg 398 512)).height = 1024 ∧
        (generate_tips (blankImg 398 512)).pix 0 0 =
          (if 796 - ((blankImg 398 512).resize 796 1024).width ≤ 0 ∧
              0 < ((blankImg 398 512).resize 796 1024).height then
            blend transparentPix
              (((blankImg 398 512).resize 796 1024).pix
                (0 - (796 - ((blankImg 398 512).resize 796 1024).width)) 0)
          else transparentPix)) :=
  ⟨by norm_num, by norm_num, c4_tips (blankImg 398 512) 0 0 (by norm_num) (by norm_num)⟩

/-- C5: the painting generator keeps the template's dimensions, the
fill-mode resize of any source with positive dimensions is exactly 243 by
324 regardless of the source's aspect, and the resized image is overlaid
at the fixed absolute position (264, 19). -/
theorem c5_painting (tmpl p : Img) (hw : 1 ≤ p.width) (hh : 1 ≤ p.height) :
    (generate_painting tmpl p).width = tmpl.width ∧
      (generate_painting tmpl p).height = tmpl.height ∧
      (p.resize_to_fill 243 324).width = 243 ∧
      (p.resize_to_fill 243 324).height = 324 ∧
      generate_painting tmpl p = overlay tmpl (p.resize_to_fill 243 324) 264 19 := by
  have hf := fill_ge p.width p.height 243 324 hw hh (by norm_num) (by norm_num)
  have h1 : 243 ≤ (resize_dimensions p.width p.height 243 324 true).1 := hf.1
  have h2 : 324 ≤ (resize_dimensions p.width p.height 243 324 true).2 := hf.2
  refine ⟨rfl, rfl, ?_, ?_, rfl⟩ <;>
    · simp only [Img.resize_to_fill]
      split_ifs <;> simp only [crop, resize_exact] <;> omega

/-- Witness for the painting theorem at a concrete 10 by 20 source and a
concrete 600 by 400 template. -/
theorem c5_painting_witness :
    1 ≤ (blankImg 10 20).width ∧ 1 ≤ (blankImg 10 20).height ∧
      ((generate_painting (blankImg 600 400) (blankImg 10 20)).width = (blankImg 600 400).width ∧
        (generate_painting (blankImg 600 400) (blankImg 10 20)).height = (blankImg 600 400).height ∧
        ((blankImg 10 20).resize_to_fill 243 324).width = 243 ∧
        ((blankImg 10 20).resize_to_fill 243 324).height = 324 ∧
        generate_painting (blankImg 600 400) (blankImg 10 20) =
          overlay (blankImg 600 400) ((blankImg 10 20).resize_to_fill 243 324) 264 19) :=
  ⟨by norm_num [blankImg], by norm_num [blankImg],
    c5_painting (blankImg 600 400) (blankImg 10 20)
      (by norm_num [blankImg]) (by norm_num [blankImg])⟩

theorem sched_names (pt pg : Img) (imgs : List Img) (d : OutDir) (l : List Nat) :
    (generate_assets_sched pt pg imgs l).filterMap
        (fun w => if w.dir = d then some w.name else none) =
      l.map imgName := by
  induction l with
  | nil => rfl
  | cons a t ih =>
    have e1 : generate_assets_sched pt pg imgs (a :: t) =
        perIndexWrites pt pg imgs a ++ generate_assets_sched pt pg imgs t := rfl
    rw [e1, List.filterMap_append, ih, List.map_cons]
    cases d <;> rfl

/-- C6: a complete run over a store of N images, N at least 1, writes into
each of the three output directories exactly the file names 0.png through
(N-1).png in store order — N files per directory. -/
theorem c6_output_files (pt pg : Img) (imgs : List Img) (h : 1 ≤ imgs.length)
    (d : OutDir) :
    writtenNames pt pg imgs d = (List.range imgs.length).map imgName ∧
      (writtenNames pt pg imgs d).length = imgs.length := by
  have e : writtenNames pt pg imgs d = (List.range imgs.length).map imgName :=
    sched_names pt pg imgs d (List.range imgs.length)
  refine ⟨e, ?_⟩
  rw [e, List.length_map, List.length_range]

/-- Witness for the output-file theorem at a one-image store and the
posters directory. -/
theorem c6_output_files_witness :
    1 ≤ ([blankImg 1 1] : List Img).length ∧
      (writtenNames (blankImg 2 2) (blankImg 3 3) [blankImg 1 1] OutDir.posters =
        (List.range ([blankImg 1 1] : List Img).length).map imgName ∧
      (writtenNames (blankImg 2 2) (blankImg 3 3) [blankImg 1 1] OutDir.posters).length =
        ([blankImg 1 1] : List Img).length) :=
  ⟨by simp, c6_output_files (blankImg 2 2) (blankImg 3 3) [blankImg 1 1]
    (by simp) OutDir.posters⟩

/-- C9: the pipeline is deterministic despite the data-parallel outer
loop: whatever orders (permutations of 0..N-1) two runs finish their
indices in, the two runs produce the same multiset of writes — and hence
exactly the same files with the same canvases, since names are written
once per run. -/
theorem c9_determinism (pt pg : Img) (imgs : List Img) (o1 o2 : List Nat)
    (h1 : o1.Perm (List.range imgs.length)) (h2 : o2.Perm (List.range imgs.length)) :
    (generate_assets_sched pt pg imgs o1).Perm (generate_assets_sched pt pg imgs o2) ∧
      ∀ w, w ∈ generate_assets_sched pt pg imgs o1 ↔
        w ∈ generate_assets_sched pt pg imgs o2 := by
  have hp : o1.Perm o2 := h1.trans h2.symm
  have hperm : (generate_assets_sched pt pg imgs o1).Perm
      (generate_assets_sched pt pg imgs o2) := hp.flatMap_right _
  exact ⟨hperm, fun w => hperm.mem_iff⟩

/-- Witness for the determinism theorem: a two-image store with one run
finishing its indices in order 1, 0 and the other in order 0, 1. -/
theorem c9_determinism_witness :
    ([1, 0] : List Nat).Perm (List.range ([blankImg 1 1, blankImg 2 2] : List Img).length) ∧
      ((generate_assets_sched (blankImg 2 2) (blankImg 3 3) [blankImg 1 1, blankImg 2 2] [1, 0]).Perm
        (generate_assets_sched (blankImg 2 2) (blankImg 3 3) [blankImg 1 1, blankImg 2 2] [0, 1]) ∧
      ∀ w, w ∈ generate_assets_sched (blankImg 2 2) (blankImg 3 3) [blankImg 1 1, blankImg 2 2] [1, 0] ↔
        w ∈ generate_assets_sched (blankImg 2 2) (blankImg 3 3) [blankImg 1 1, blankImg 2 2] [0, 1]) :=
  ⟨by decide, c9_determinism (blankImg 2 2) (blankImg 3 3) [blankImg 1 1, blankImg 2 2]
    [1, 0] [0, 1] (by decide) (by decide)⟩

/-- C10 (implicit claim): the u32 subtractions computing the
right-aligned x offsets never underflow, because a fit resize into a
target box never returns a width above the box width: for the tips call
the resized width is at most 796, for every atlas slot it is at most the
slot width, and in both cases the truncated Nat subtraction agrees with
the mathematical integer difference, which is therefore nonnegative. -/
theorem c10_no_underflow (img : Img) :
    ((img.resize 796 1024).width ≤ 796 ∧
      (((796 - (img.resize 796 1024).width : Nat) : Int) =
        796 - ((img.resize 796 1024).width : Int))) ∧
    ∀ o ∈ POSTER_OFFSETS,
      (img.resize o.width o.height).width ≤ o.width ∧
      (((o.x + o.width - (img.resize o.width o.height).width : Nat) : Int) =
        (o.x : Int) + (o.width : Int) - ((img.resize o.width o.height).width : Int)) := by
  have key : ∀ a b c : Nat, 1 ≤ a → 1 ≤ b →
      (img.resize a b).width ≤ a ∧
        (((c + a - (img.resize a b).width : Nat) : Int) =
          (c : Int) + (a : Int) - ((img.resize a b).width : Int)) := by
    intro a b c ha hb
    have hba : (img.resize a b).width ≤ a := (fit_le img.width img.height a b ha hb).1
    exact ⟨hba, by omega⟩
  constructor
  · have hb : (img.resize 796 1024).width ≤ 796 :=
      (fit_le img.width img.height 796 1024 (by norm_num) (by norm_num)).1
    exact ⟨hb, by omega⟩
  · intro o ho
    fin_cases ho <;> exact key _ _ _ (by norm_num) (by norm_num)

/-- The first atlas slot, used by the underflow witness. -/
def slot0 : SlotRect := ⟨0, 0, 341, 559⟩

/-- Witness for the underflow theorem at a concrete 50 by 50 source and
the first atlas slot. -/
theorem c10_no_underflow_witness :
    slot0 ∈ POSTER_OFFSETS ∧
      (((blankImg 50 50).resize slot0.width slot0.height).width ≤ slot0.width ∧
        (((slot0.x + slot0.width -
            ((blankImg 50 50).resize slot0.width slot0.height).width : Nat) : Int) =
          (slot0.x : Int) + (slot0.width : Int) -
            (((blankImg 50 50).resize slot0.width slot0.height).width : Int))) :=
  ⟨by decide, (c10_no_underflow (blankImg 50 50)).2 slot0 (by decide)⟩

/-- C8: overlay never faults for any signed offset — the model of the
library primitive is a total function — and clipping is sound: for every
base, foreground and signed offset, including offsets that place part or
all of the foreground outside the base (negative included), the result is
pixel-identical to overlaying only the sub-region of the foreground that
falls inside the base's bounds, at the offset clamped to the base. -/
theorem c8_overlay_clip (base fg : Img) (x y : Int) :
    ImgEq (overlay base fg x y)
      (overlay base (visiblePart base fg x y) (max x 0) (max y 0)) := by
  obtain ⟨bw, bh, bp⟩ := base
  obtain ⟨fw, fh, fp⟩ := fg
  refine ⟨rfl, rfl, ?_⟩
  intro px hpx py hpy
  simp only [overlay, visiblePart, crop] at hpx hpy ⊢
  split_ifs with hA hB hB
  · have e1 : ((px : Int) - x).toNat =
        min (-x).toNat fw + ((px : Int) - max x 0).toNat := by omega
    have e2 : ((py : Int) - y).toNat =
        min (-y).toNat fh + ((py : Int) - max y 0).toNat := by omega
    rw [e1, e2]
  · exfalso
    exact hB ⟨by omega, by omega, by omega, by omega⟩
  · exfalso
    exact hA ⟨by omega, by omega, by omega, by omega⟩
  · rfl

/-- C7 counterexample: the claim quantifies over every target box, but for
the degenerate box 0 by 5 the fit resize of a 1 by 1 source has width 1,
exceeding the target width 0 — the dimension rule never returns a
dimension below one pixel. -/
theorem c7_counterexample :
    ¬ ((blankImg 1 1).resize 0 5).width ≤ 0 ∧
      ((blankImg 1 1).resize 0 5).width = 1 := by
  have e : ((blankImg 1 1).resize 0 5).width = 1 := by
    show (resize_dimensions 1 1 0 5 false).1 = 1
    rw [resize_dimensions]
    norm_num
  exact ⟨by omega, e⟩

/-- C7 (amended): for every source image and every target box whose width
and height are both at least 1, fit resize yields a width at most the
target width and a height at most the target height, and each output
dimension is within one pixel of the corresponding source dimension
scaled by the common fit ratio (the smaller of the two box ratios), so
the source aspect ratio is preserved within one pixel of rounding. -/
theorem c7_fit (img : Img) (nw nh : Nat) (h1 : 1 ≤ nw) (h2 : 1 ≤ nh) :
    (img.resize nw nh).width ≤ nw ∧ (img.resize nw nh).height ≤ nh ∧
      |((img.resize nw nh).width : ℚ) -
          (img.width : ℚ) * min ((nw : ℚ) / (img.width : ℚ)) ((nh : ℚ) / (img.height : ℚ))| ≤ 1 ∧
      |((img.resize nw nh).height : ℚ) -
          (img.height : ℚ) * min ((nw : ℚ) / (img.width : ℚ)) ((nh : ℚ) / (img.height : ℚ))| ≤ 1 := by
  have hb := fit_le img.width img.height nw nh h1 h2
  have hc := fit_close img.width img.height nw nh
  exact ⟨hb.1, hb.2, hc.1, hc.2⟩

/-- Witness for the amended fit theorem at a concrete 100 by 50 source
and a 10 by 10 box. -/
theorem c7_fit_witness :
    1 ≤ 10 ∧ 1 ≤ 10 ∧
      (((blankImg 100 50).resize 10 10).width ≤ 10 ∧
        ((blankImg 100 50).resize 10 10).height ≤ 10 ∧
        |(((blankImg 100 50).resize 10 10).width : ℚ) -
            ((blankImg 100 50).width : ℚ) *
              min ((10 : ℚ) / ((blankImg 100 50).width : ℚ))
                ((10 : ℚ) / ((blankImg 100 50).height : ℚ))| ≤ 1 ∧
        |(((blankImg 100 50).resize 10 10).height : ℚ) -
            ((blankImg 100 50).height : ℚ) *
              min ((10 : ℚ) / ((blankImg 100 50).width : ℚ))
                ((10 : ℚ) / ((blankImg 100 50).height : ℚ))| ≤ 1) :=
  ⟨by norm_num, by norm_num,
    c7_fit (blankImg 100 50) 10 10 (by norm_num) (by norm_num)⟩
